import Mathlib

/-!
Verification of the ChatPrompt conversation-orchestration engine of the
`teams.py` repository (package `microsoft.teams.ai`).

The engine implementation files (`chat_prompt.py`, `plugin.py`, `message.py`,
`memory.py`, `function.py`) are not present under `src/`; only their public
declarations (`__init__.py`), the test suite (`tests/test_chat_prompt.py`)
and example callers are.  The definitions below are therefore modelled from
the specification (`spec.md`, §3–§7) and cross-checked against the observable
behaviour pinned down by the test suite.

Modelling conventions:
* Python exceptions are values of type `Err` (a string identifying the
  exception); a computation that may raise returns `Except Err _`.
* The side effects visible during one `send` call — the conversation memory,
  the chunks delivered to `on_chunk`, and the order in which function-call
  hooks, the real handler, and the backend fire — are threaded through an
  explicit state `St`.  An effectful computation has type `Eff α`; its state
  survives a raised exception (as side effects do in Python).
* `on_chunk` is modelled by a boolean "callback supplied" flag plus the list
  `St.chunks` of chunks the callback has received so far.
-/

namespace TeamsAI

/-- Exceptions are identified by a string (the Python exception message). -/
abbrev Err := String

/-- A raw argument mapping, as received from the model (JSON object
keys/values flattened to strings). -/
abbrev RawArgs := List (String × String)

/-- A validated, typed argument value produced by a parameter schema. -/
abbrev Params := List (String × String)

/-- Modelled from the spec: `FunctionCall = {id, name, arguments}` (§3);
`id` is an opaque correlation token, `arguments` a structured value. -/
structure FunctionCall where
  id : String
  name : String
  arguments : RawArgs
deriving DecidableEq, Repr

/-- Modelled from the spec: `Message` is one of
{System, User, Model, FunctionResult} (§3).  A `model` message carries
optional text content and an optional ordered list of function calls. -/
inductive Message where
  | system (content : String)
  | user (content : String)
  | model (content : Option String) (function_calls : Option (List FunctionCall))
  | function (function_id : String) (content : String)
deriving DecidableEq, Repr

/-- The text content of a message (empty for a content-less model message). -/
def msgText : Message → String
  | .system s => s
  | .user s => s
  | .model c _ => c.getD ""
  | .function _ c => c

/-- Rewrite the text content of a message, leaving everything else intact. -/
def mapContent (f : String → String) : Message → Message
  | .system s => .system (f s)
  | .user s => .user (f s)
  | .model c fc => .model (some (f (c.getD ""))) fc
  | .function i c => .function i (f c)

/-- Modelled from the spec: a parameter schema is "an opaque capability
offering both a model-facing description and a parse/validate operation from
a raw argument mapping to a typed value" (§6); validation failure is a
`ValidationError` carrying a message. -/
structure Schema where
  validate : RawArgs → Except String Params

/-- Modelled from the spec: `Function = {name, description,
parameter_schema?, handler}` (§3).  `parameter_schema = none` means the
handler takes no arguments, so the handler receives `none`. -/
structure Func where
  name : String
  description : String
  parameter_schema : Option Schema
  handler : Option Params → String

/-- One entry of the observable event trace of a `send` call: the plugin
function-call hooks, the single run of a real handler, and the engine's
invocation of the backend's `generate_text` (recording the input and system
message the backend receives). -/
inductive Event where
  | beforeFn (plugin fn : String) (args : Option Params)
  | handlerRun (fn : String)
  | afterFn (plugin fn : String) (args : Option Params) (result : String)
  | genText (input : Message) (system : Option Message)
deriving DecidableEq, Repr

/-- The mutable state threaded through one `send` call: the conversation
memory (the `ListMemory` the call uses), the chunks delivered to the
`on_chunk` callback so far, and the event trace. -/
structure St where
  memory : List Message
  chunks : List String
  trace : List Event
deriving DecidableEq, Repr

/-- Outcome of an effectful computation: like Python, side effects performed
before an exception persist, so the state is returned in both cases. -/
inductive EResult (α : Type) where
  | ok (a : α) (s : St)
  | error (e : Err) (s : St)
deriving DecidableEq, Repr

/-- An effectful computation over the send-call state. -/
def Eff (α : Type) := St → EResult α

/-- The final state of an effectful outcome. -/
def stOf : EResult α → St
  | .ok _ s => s
  | .error _ s => s

/-- The pure (exception-or-value) part of an effectful outcome. -/
def toExcept : EResult α → Except Err α
  | .ok a _ => .ok a
  | .error e _ => .error e

/-- Append an event to the trace. -/
def pushEv (st : St) (e : Event) : St :=
  { st with trace := st.trace ++ [e] }

/-- A function as the backend sees it after tool wrapping: same metadata,
but the handler is the effectful hook-firing wrapper taking the raw
arguments. -/
structure WFunc where
  name : String
  description : String
  parameter_schema : Option Schema
  handler : RawArgs → Eff String

/-- Modelled from the spec: a plugin is "polymorphic over an optional hook
capability set; unset hooks behave as identity/no-op" (§3, §4.4).  Each
value-transforming hook returns `none` as the "no-change" sentinel.  Every
field defaults to the no-op, as in `BaseAIPlugin`. -/
structure Plugin where
  name : String
  on_before_send : Message → Except Err (Option Message) := fun _ => .ok none
  on_build_instructions : Option Message → Except Err (Option Message) := fun _ => .ok none
  on_build_functions : List WFunc → Except Err (Option (List WFunc)) := fun _ => .ok none
  on_before_function_call : String → Option Params → Except Err Unit := fun _ _ => .ok ()
  on_after_function_call : String → String → Option Params → Except Err (Option String) :=
    fun _ _ _ => .ok none
  on_after_send : Message → Except Err (Option Message) := fun _ => .ok none

/-- The base plugin `BaseAIPlugin(name)`: every hook left at its default no-op. -/
def BaseAIPlugin (name : String) : Plugin := { name := name }

/-- Modelled from the spec: the `on_before_send` chain — "plugins execute
strictly in registration order ... each plugin receives the prior plugin's
output"; a hook raising aborts immediately (§4.4). -/
def chainBeforeSend : List Plugin → Message → Except Err Message
  | [], m => .ok m
  | p :: ps, m =>
    match p.on_before_send m with
    | .error e => .error e
    | .ok none => chainBeforeSend ps m
    | .ok (some m') => chainBeforeSend ps m'

/-- Modelled from the spec: the `on_build_instructions` chain, seeded with
the caller-supplied instructions or none (§4.5 step 1). -/
def chainBuildInstructions : List Plugin → Option Message → Except Err (Option Message)
  | [], s => .ok s
  | p :: ps, s =>
    match p.on_build_instructions s with
    | .error e => .error e
    | .ok none => chainBuildInstructions ps s
    | .ok (some s') => chainBuildInstructions ps (some s')

/-- Modelled from the spec: the `on_build_functions` chain, seeded with the
registry's current members already tool-wrapped (§4.5 step 1). -/
def chainBuildFunctions : List Plugin → List WFunc → Except Err (List WFunc)
  | [], fs => .ok fs
  | p :: ps, fs =>
    match p.on_build_functions fs with
    | .error e => .error e
    | .ok none => chainBuildFunctions ps fs
    | .ok (some fs') => chainBuildFunctions ps fs'

/-- Modelled from the spec: the `on_after_send` chain over the backend's
final model message (§4.5 step 3). -/
def chainAfterSend : List Plugin → Message → Except Err Message
  | [], m => .ok m
  | p :: ps, m =>
    match p.on_after_send m with
    | .error e => .error e
    | .ok none => chainAfterSend ps m
    | .ok (some m') => chainAfterSend ps m'

/-- Modelled from the spec: fire `on_before_function_call` for every plugin
in registration order, passing the function name and the validated
arguments (§4.4); each invocation is recorded in the trace. -/
def runBeforeFnChain : List Plugin → String → Option Params → Eff Unit
  | [], _, _ => fun st => .ok () st
  | p :: ps, n, a => fun st =>
    let st1 := pushEv st (.beforeFn p.name n a)
    match p.on_before_function_call n a with
    | .error e => .error e st1
    | .ok _ => runBeforeFnChain ps n a st1

/-- Modelled from the spec: fire `on_after_function_call` for every plugin
in registration order, "threading the evolving result string through each
plugin" (§4.4); `none` keeps the prior result. -/
def runAfterFnChain : List Plugin → String → Option Params → String → Eff String
  | [], _, _, r => fun st => .ok r st
  | p :: ps, n, a, r => fun st =>
    let st1 := pushEv st (.afterFn p.name n a r)
    match p.on_after_function_call n r a with
    | .error e => .error e st1
    | .ok none => runAfterFnChain ps n a r st1
    | .ok (some r') => runAfterFnChain ps n a r' st1

/-- Validate raw arguments against an optional parameter schema:
no schema means the handler takes no arguments (§3). -/
def validateArgs : Option Schema → RawArgs → Except String (Option Params)
  | none, _ => .ok none
  | some sch, raw =>
    match sch.validate raw with
    | .error e => .error e
    | .ok p => .ok (some p)

/-- The error string a validation failure is folded into (§7): visible to
the model as the function's result content. -/
def validationErrorMessage (fn msg : String) : String :=
  "Error validating arguments for " ++ fn ++ ": " ++ msg

/-- Modelled from the spec: the tool-wrapped handler (§4.4, §7).  Arguments
failing schema validation raise a `ValidationError` that is "caught at the
tool-wrapper boundary, converted into an error string folded into that
function's result content — visible to the model, not raised to the
caller".  On valid arguments: every plugin's `on_before_function_call` in
order, then the real handler exactly once, then every plugin's
`on_after_function_call` in order threading the result. -/
def wrapHandler (ps : List Plugin) (f : Func) (raw : RawArgs) : Eff String := fun st =>
  match validateArgs f.parameter_schema raw with
  | .error e => .ok (validationErrorMessage f.name e) st
  | .ok args =>
    match runBeforeFnChain ps f.name args st with
    | .error e st' => .error e st'
    | .ok _ st' =>
      let st2 := pushEv st' (.handlerRun f.name)
      runAfterFnChain ps f.name args (f.handler args) st2

/-- Tool-wrap one registered function: metadata kept, handler replaced by
the hook-firing wrapper (§4.4). -/
def wrapFunc (ps : List Plugin) (f : Func) : WFunc :=
  { name := f.name
    description := f.description
    parameter_schema := f.parameter_schema
    handler := wrapHandler ps f }

/-- Lookup in an insertion-ordered string-keyed association list
(Python `dict` access). -/
def assocLookup (n : String) : List (String × α) → Option α
  | [] => none
  | (k, v) :: rest => if k == n then some v else assocLookup n rest

/-- Assignment `d[k] = v` on an insertion-ordered association list: overwriting keeps
the key's position (Python `dict` assignment). -/
def dictSet (k : String) (v : Func) : List (String × Func) → List (String × Func)
  | [] => [(k, v)]
  | (k', v') :: rest =>
    if k' == k then (k, v) :: rest else (k', v') :: dictSet k v rest

/-- Modelled from the spec: `ChatPrompt` holds the function registry (an
insertion-ordered name-keyed dict) and the ordered plugin list (§3). -/
structure ChatPrompt where
  functions : List (String × Func) := []
  plugins : List Plugin := []

/-- Registration `with_function`: last-write-wins on name collision
(§4.2); the updated prompt is the value used for further chaining (Python
mutates in place and returns `self`). -/
def ChatPrompt.with_function (cp : ChatPrompt) (f : Func) : ChatPrompt :=
  { cp with functions := dictSet f.name f cp.functions }

/-- Registration `with_plugin`: append a plugin at the end of the registration order. -/
def ChatPrompt.with_plugin (cp : ChatPrompt) (p : Plugin) : ChatPrompt :=
  { cp with plugins := cp.plugins ++ [p] }

/-- The input of `send`: bare text or an already-built message (§4.5). -/
inductive SendInput where
  | str (s : String)
  | msg (m : Message)

/-- Normalize the caller's input: bare text becomes a `UserMessage`. -/
def normalizeInput : SendInput → Message
  | .str s => .user s
  | .msg m => m

/-- The backend collaborator's single operation
`generate_text(input, system, functions, on_chunk)` (§6); the memory and
the chunk sink live in the threaded state, `Bool` says whether an
`on_chunk` callback was supplied. -/
def Backend := Message → Option Message → List (String × WFunc) → Bool → Eff Message

/-- The result value of `send`. -/
structure ChatSendResult where
  response : Message
deriving DecidableEq, Repr

/-- The name-keyed dict of functions handed to the backend. -/
def fnsDict (fs : List WFunc) : List (String × WFunc) :=
  fs.map (fun f => (f.name, f))

/-- The functions the engine passes to the backend: the registry's members
tool-wrapped, run through the `on_build_functions` chain, keyed by name
(§4.5 step 1). -/
def buildWrappedFunctions (cp : ChatPrompt) : Except Err (List (String × WFunc)) :=
  match chainBuildFunctions cp.plugins (cp.functions.map (fun nf => wrapFunc cp.plugins nf.2)) with
  | .error e => .error e
  | .ok fs => .ok (fnsDict fs)

/-- Modelled from the spec: the FINALIZE stage of `send` (§4.5 step 3): a
backend exception propagates unmodified, otherwise the `on_after_send`
chain runs over the backend's final model message and the result is
wrapped in a `ChatSendResult`. -/
def finalizeSend (ps : List Plugin) : EResult Message → EResult ChatSendResult
  | .error e st' => .error e st'
  | .ok resp st' =>
    match chainAfterSend ps resp with
    | .error e => .error e st'
    | .ok final => .ok ⟨final⟩ st'

/-- Modelled from the spec: the `send` state machine
`BUILD_CONTEXT → INVOKE_MODEL → FINALIZE` (§4.5).  Normalize the input, run
the `on_before_send`, `on_build_instructions` and `on_build_functions`
chains, invoke the backend once (recorded as a `genText` trace event
carrying what the backend receives), then run the `on_after_send` chain.
Errors from any hook or from the backend propagate unmodified; the engine
itself never touches the memory. -/
def send (cp : ChatPrompt) (backend : Backend) (input : SendInput)
    (instructions : Option Message) (onChunk : Bool) : Eff ChatSendResult := fun st =>
  let m0 := normalizeInput input
  match chainBeforeSend cp.plugins m0 with
  | .error e => .error e st
  | .ok m1 =>
    match chainBuildInstructions cp.plugins instructions with
    | .error e => .error e st
    | .ok sys =>
      match buildWrappedFunctions cp with
      | .error e => .error e st
      | .ok fns =>
        finalizeSend cp.plugins (backend m1 sys fns onChunk (pushEv st (.genText m1 sys)))

/-- A deterministic backend family mirroring the test suite's `MockAIModel`
and the backend obligations of §4.5 step 2: push the input to memory,
produce `"GENERATED - " ++ input text`, deliver the streaming chunks when a
callback is supplied, optionally invoke one wrapped function and fold its
string result into the content, push the response to memory. -/
structure SimpleBackend where
  chunks : List String := []
  callFn : Option (String × RawArgs) := none

/-- Fold a wrapped-function outcome into the backend turn: a string result
becomes the response built by `g` (pushed to memory), an exception
propagates. -/
def foldFnResult (g : String → Message) : EResult String → EResult Message
  | .error e st3 => .error e st3
  | .ok r st3 => .ok (g r) { st3 with memory := st3.memory ++ [g r] }

/-- The function-calling turn of the simple backend: resolve the requested
function in the dict the engine provided, invoke its wrapped handler with
the raw arguments, and fold the string result into the response content. -/
def backendRespond (base : String) (pr : String × RawArgs)
    (fns : List (String × WFunc)) (st2 : St) : EResult Message :=
  match assocLookup pr.1 fns with
  | none =>
    .ok (Message.model (some base) none)
      { st2 with memory := st2.memory ++ [Message.model (some base) none] }
  | some wf =>
    foldFnResult
      (fun r => Message.model (some (base ++ " | Function result: " ++ r))
        (some [⟨"call_1", pr.1, pr.2⟩]))
      (wf.handler pr.2 st2)

/-- Interpret a `SimpleBackend` description as a backend. -/
def runSimpleBackend (sb : SimpleBackend) : Backend := fun input _sys fns oc st =>
  let st1 : St := { st with memory := st.memory ++ [input] }
  let base := "GENERATED - " ++ msgText input
  let st2 := cond oc { st1 with chunks := st1.chunks ++ sb.chunks } st1
  match sb.callFn with
  | none =>
    let resp := Message.model (some base) none
    .ok resp { st2 with memory := st2.memory ++ [resp] }
  | some pr => backendRespond base pr fns st2

/-- The echo backend of the tests: no chunks, no function calls. -/
def echoBackend : Backend := runSimpleBackend {}

/-- Sequential `send` calls sharing one memory/state, stopping at the first
raised exception. -/
def sendSeq (cp : ChatPrompt) (b : Backend) : List String → Eff Unit
  | [] => fun st => .ok () st
  | s :: rest => fun st =>
    match send cp b (.str s) none false st with
    | .error e st' => .error e st'
    | .ok _ st' => sendSeq cp b rest st'

/-! Statement helpers, test-style plugins and concrete fixtures. -/

/-- Wrap a string in markers applied left to right:
`wrapAll [m1, m2] s = "m2: m1: s"` — each later marker wraps the prior
output, so registration order is innermost-first. -/
def wrapAll (ms : List String) (s : String) : String :=
  ms.foldl (fun acc m => m ++ ": " ++ acc) s

/-- A test-style plugin (the tests' `MockPlugin`) that wraps the outgoing
input with marker `b` and the final response with marker `a`. -/
def markerPlugin (b a : String) : Plugin :=
  { name := b
    on_before_send := fun m => .ok (some (mapContent (fun c => b ++ ": " ++ c) m))
    on_after_send := fun m => .ok (some (mapContent (fun c => a ++ ": " ++ c) m)) }

/-- A test-style plugin that observes `on_before_function_call` and wraps
the function result with marker `m` in `on_after_function_call`. -/
def fnMarkerPlugin (m : String) : Plugin :=
  { name := m
    on_after_function_call := fun _ r _ => .ok (some (m ++ ": " ++ r)) }

/-- The `afterFn` trace a chain of `fnMarkerPlugin`s produces: each plugin
receives the prior plugin's output as the evolving result. -/
def afterEvs (fn : String) (p : Option Params) : List String → String → List Event
  | [], _ => []
  | m :: ms, r => .afterFn m fn p r :: afterEvs fn p ms (m ++ ": " ++ r)

/-- The memory contents after echo-backend exchanges: one input/response
pair per send call, in call order. -/
def convPairs (inputs : List String) : List Message :=
  inputs.flatMap (fun s => [Message.user s, Message.model (some ("GENERATED - " ++ s)) none])

/-- Is an event a backend invocation? -/
def isGen : Event → Bool
  | .genText _ _ => true
  | _ => false

/-- Number of backend invocations recorded in a trace. -/
def genCount (tr : List Event) : Nat :=
  (tr.filter isGen).length

/-- A backend whose `generate_text` raises `e` immediately. -/
def throwingBackend (e : Err) : Backend := fun _ _ _ _ st => .error e st

/-- A plugin whose `on_before_send` raises `e`. -/
def raisingBeforeSendPlugin (e : Err) : Plugin :=
  { name := "raising_before", on_before_send := fun _ => .error e }

/-- A plugin whose `on_after_send` raises `e`. -/
def raisingAfterSendPlugin (e : Err) : Plugin :=
  { name := "raising_after", on_after_send := fun _ => .error e }

/-- The observable view of an effectful outcome: the returned value or
exception, the memory, the delivered chunks, and the backend invocations
(each carrying what the backend received) — everything except the
hook-bookkeeping part of the trace. -/
def obsOut (r : EResult α) :
    Except Err α × List Message × List String × List Event :=
  (toExcept r, (stOf r).memory, (stOf r).chunks, (stOf r).trace.filter isGen)

/-- Two function dicts are observation-equivalent: the same names resolve,
and resolved handlers agree on everything a backend can observe. -/
def HandlersObsEq (fns1 fns2 : List (String × WFunc)) : Prop :=
  ∀ n : String,
    (assocLookup n fns1 = none ∧ assocLookup n fns2 = none) ∨
    (∃ w1 w2, assocLookup n fns1 = some w1 ∧ assocLookup n fns2 = some w2 ∧
      ∀ raw st, obsOut (w1.handler raw st) = obsOut (w2.handler raw st))

/-- A schema accepting every raw argument mapping as-is. -/
def okSchema : Schema := ⟨fun raw => .ok raw⟩

/-- A schema rejecting every raw argument mapping. -/
def rejectSchema : Schema := ⟨fun _ => .error "bad arguments"⟩

/-- The test suite's `test_function` fixture. -/
def sampleFunc : Func :=
  { name := "test_function"
    description := "A test function"
    parameter_schema := some okSchema
    handler := fun _ => "Function executed successfully" }

/-- A function whose schema rejects all arguments. -/
def rejectingFunc : Func :=
  { name := "picky_function"
    description := "rejects everything"
    parameter_schema := some rejectSchema
    handler := fun _ => "never reached" }

/-- A second function registered under the same name as `sampleFunc`. -/
def sampleFunc2 : Func :=
  { name := "test_function"
    description := "Overwritten function"
    parameter_schema := some okSchema
    handler := fun _ => "v2" }

/-- The empty initial state: empty memory, no chunks, no events. -/
def emptySt : St := { memory := [], chunks := [], trace := [] }

/-! Helper lemmas. -/

lemma genCount_append (t1 t2 : List Event) :
    genCount (t1 ++ t2) = genCount t1 + genCount t2 := by
  simp [genCount, List.filter_append]

lemma filter_isGen_nonGen (t : List Event) (evs : List Event)
    (h : ∀ e ∈ evs, isGen e = false) :
    (t ++ evs).filter isGen = t.filter isGen := by
  rw [List.filter_append]
  have : evs.filter isGen = [] := List.filter_eq_nil_iff.mpr (by
    intro e he
    simp [h e he])
  simp [this]

lemma chainBeforeSend_append (xs ys : List Plugin) (m m' : Message)
    (h : chainBeforeSend xs m = .ok m') :
    chainBeforeSend (xs ++ ys) m = chainBeforeSend ys m' := by
  induction xs generalizing m with
  | nil =>
    simp only [chainBeforeSend] at h
    cases h
    simp
  | cons p ps ih =>
    simp only [List.cons_append, chainBeforeSend] at h ⊢
    cases hp : p.on_before_send m with
    | error e => rw [hp] at h; simp at h
    | ok o =>
      cases o with
      | none => rw [hp] at h; exact ih _ h
      | some m2 => rw [hp] at h; exact ih _ h

lemma chainBeforeSend_nochange (ps : List Plugin) (m : Message)
    (h : ∀ p ∈ ps, ∀ x, p.on_before_send x = .ok none) :
    chainBeforeSend ps m = .ok m := by
  induction ps with
  | nil => rfl
  | cons p rest ih =>
    simp only [chainBeforeSend, h p (by simp)]
    exact ih (fun q hq x => h q (by simp [hq]) x)

lemma chainBuildInstructions_nochange (ps : List Plugin) (s : Option Message)
    (h : ∀ p ∈ ps, ∀ x, p.on_build_instructions x = .ok none) :
    chainBuildInstructions ps s = .ok s := by
  induction ps with
  | nil => rfl
  | cons p rest ih =>
    simp only [chainBuildInstructions, h p (by simp)]
    exact ih (fun q hq x => h q (by simp [hq]) x)

lemma chainBuildFunctions_nochange (ps : List Plugin) (fs : List WFunc)
    (h : ∀ p ∈ ps, ∀ x, p.on_build_functions x = .ok none) :
    chainBuildFunctions ps fs = .ok fs := by
  induction ps with
  | nil => rfl
  | cons p rest ih =>
    simp only [chainBuildFunctions, h p (by simp)]
    exact ih (fun q hq x => h q (by simp [hq]) x)

lemma chainAfterSend_nochange (ps : List Plugin) (m : Message)
    (h : ∀ p ∈ ps, ∀ x, p.on_after_send x = .ok none) :
    chainAfterSend ps m = .ok m := by
  induction ps with
  | nil => rfl
  | cons p rest ih =>
    simp only [chainAfterSend, h p (by simp)]
    exact ih (fun q hq x => h q (by simp [hq]) x)

lemma noop_mem_replicate (n : Nat) (nm : String) (p : Plugin)
    (hp : p ∈ List.replicate n (BaseAIPlugin nm)) : p = BaseAIPlugin nm :=
  List.eq_of_mem_replicate hp

lemma wrapAll_cons (m : String) (ms : List String) (s : String) :
    wrapAll (m :: ms) s = wrapAll ms (m ++ ": " ++ s) := rfl

lemma chainBeforeSend_marker_step (b a : String) (ps : List Plugin) (s : String) :
    chainBeforeSend (markerPlugin b a :: ps) (Message.user s) =
      chainBeforeSend ps (Message.user (b ++ ": " ++ s)) := rfl

lemma chainAfterSend_marker_step (b a : String) (ps : List Plugin) (c : String)
    (fc : Option (List FunctionCall)) :
    chainAfterSend (markerPlugin b a :: ps) (Message.model (some c) fc) =
      chainAfterSend ps (Message.model (some (a ++ ": " ++ c)) fc) := rfl

lemma chainBeforeSend_marker (marks : List (String × String)) (s : String) :
    chainBeforeSend (marks.map (fun bm => markerPlugin bm.1 bm.2)) (Message.user s) =
      .ok (Message.user (wrapAll (marks.map Prod.fst) s)) := by
  induction marks generalizing s with
  | nil => simp [chainBeforeSend, wrapAll]
  | cons bm rest ih =>
    rw [List.map_cons, chainBeforeSend_marker_step, ih, List.map_cons, wrapAll_cons]

lemma chainAfterSend_marker (marks : List (String × String)) (c : String)
    (fc : Option (List FunctionCall)) :
    chainAfterSend (marks.map (fun bm => markerPlugin bm.1 bm.2)) (Message.model (some c) fc) =
      .ok (Message.model (some (wrapAll (marks.map Prod.snd) c)) fc) := by
  induction marks generalizing c with
  | nil => simp [chainAfterSend, wrapAll]
  | cons bm rest ih =>
    rw [List.map_cons, chainAfterSend_marker_step, ih, List.map_cons, wrapAll_cons]

lemma runBeforeFnChain_closed (ps : List Plugin) (fn : String) (a : Option Params) (st : St)
    (h : ∀ p ∈ ps, p.on_before_function_call fn a = .ok ()) :
    runBeforeFnChain ps fn a st =
      .ok () { st with trace := st.trace ++ ps.map (fun p => .beforeFn p.name fn a) } := by
  induction ps generalizing st with
  | nil => simp [runBeforeFnChain]
  | cons p rest ih =>
    simp only [runBeforeFnChain, pushEv, h p (by simp)]
    rw [ih _ (fun q hq => h q (by simp [hq]))]
    simp

lemma runAfterFnChain_nochange (ps : List Plugin) (fn : String) (a : Option Params)
    (r : String) (st : St)
    (h : ∀ p ∈ ps, ∀ x, p.on_after_function_call fn x a = .ok none) :
    runAfterFnChain ps fn a r st =
      .ok r { st with trace := st.trace ++ ps.map (fun p => .afterFn p.name fn a r) } := by
  induction ps generalizing st with
  | nil => simp [runAfterFnChain]
  | cons p rest ih =>
    simp only [runAfterFnChain, pushEv, h p (by simp)]
    rw [ih _ (fun q hq x => h q (by simp [hq]) x)]
    simp

lemma runAfterFnChain_fnMarker_step (m : String) (ps : List Plugin) (fn : String)
    (a : Option Params) (r : String) (st : St) :
    runAfterFnChain (fnMarkerPlugin m :: ps) fn a r st =
      runAfterFnChain ps fn a (m ++ ": " ++ r) (pushEv st (.afterFn m fn a r)) := rfl

lemma runAfterFnChain_fnMarker (ms : List String) (fn : String) (a : Option Params)
    (r : String) (st : St) :
    runAfterFnChain (ms.map fnMarkerPlugin) fn a r st =
      .ok (wrapAll ms r) { st with trace := st.trace ++ afterEvs fn a ms r } := by
  induction ms generalizing r st with
  | nil => simp [runAfterFnChain, wrapAll, afterEvs]
  | cons m rest ih =>
    rw [List.map_cons, runAfterFnChain_fnMarker_step, ih, wrapAll_cons]
    simp [pushEv, afterEvs]

lemma wrapHandler_ok (ps : List Plugin) (f : Func) (raw : RawArgs) (a : Option Params) (st : St)
    (hv : validateArgs f.parameter_schema raw = .ok a)
    (hb : ∀ p ∈ ps, p.on_before_function_call f.name a = .ok ())
    (ha : ∀ p ∈ ps, ∀ x, p.on_after_function_call f.name x a = .ok none) :
    wrapHandler ps f raw st = .ok (f.handler a)
      { st with trace := st.trace ++ ps.map (fun p => .beforeFn p.name f.name a)
          ++ [.handlerRun f.name] ++ ps.map (fun p => .afterFn p.name f.name a (f.handler a)) } := by
  simp only [wrapHandler, hv]
  rw [runBeforeFnChain_closed ps f.name a st hb]
  simp only [pushEv]
  rw [runAfterFnChain_nochange ps f.name a (f.handler a) _ ha]

lemma wrapHandler_invalid (ps : List Plugin) (f : Func) (raw : RawArgs) (e : String) (st : St)
    (hv : validateArgs f.parameter_schema raw = .error e) :
    wrapHandler ps f raw st = .ok (validationErrorMessage f.name e) st := by
  simp [wrapHandler, hv]

lemma marker_build_instructions_nochange (marks : List (String × String)) :
    ∀ p ∈ marks.map (fun bm => markerPlugin bm.1 bm.2), ∀ x,
      p.on_build_instructions x = .ok none := by
  intro p hp x
  obtain ⟨bm, _, rfl⟩ := List.mem_map.mp hp
  rfl

lemma marker_build_functions_nochange (marks : List (String × String)) :
    ∀ p ∈ marks.map (fun bm => markerPlugin bm.1 bm.2), ∀ x,
      p.on_build_functions x = .ok none := by
  intro p hp x
  obtain ⟨bm, _, rfl⟩ := List.mem_map.mp hp
  rfl

lemma send_marker_sb (marks : List (String × String)) (sb : SimpleBackend)
    (hc : sb.callFn = none) (oc : Bool) (s : String) (st : St) :
    send ⟨[], marks.map (fun bm => markerPlugin bm.1 bm.2)⟩ (runSimpleBackend sb)
        (.str s) none oc st =
      .ok ⟨Message.model (some (wrapAll (marks.map Prod.snd)
            ("GENERATED - " ++ wrapAll (marks.map Prod.fst) s))) none⟩
        { st with
          memory := st.memory ++ [Message.user (wrapAll (marks.map Prod.fst) s),
            Message.model (some ("GENERATED - " ++ wrapAll (marks.map Prod.fst) s)) none],
          chunks := st.chunks ++ (if oc then sb.chunks else []),
          trace := st.trace ++
            [.genText (Message.user (wrapAll (marks.map Prod.fst) s)) none] } := by
  have hbw : buildWrappedFunctions ⟨[], marks.map (fun bm => markerPlugin bm.1 bm.2)⟩ = .ok [] := by
    simp only [buildWrappedFunctions, List.map_nil]
    rw [chainBuildFunctions_nochange _ _ (marker_build_functions_nochange marks)]
    rfl
  simp only [send, normalizeInput]
  rw [chainBeforeSend_marker]
  rw [chainBuildInstructions_nochange _ _ (marker_build_instructions_nochange marks)]
  rw [hbw]
  simp only [runSimpleBackend, hc, msgText, pushEv, finalizeSend]
  rw [chainAfterSend_marker]
  cases oc <;> simp [List.append_assoc]

lemma send_echo (s : String) (st : St) :
    send ⟨[], []⟩ echoBackend (.str s) none false st =
      .ok ⟨Message.model (some ("GENERATED - " ++ s)) none⟩
        { st with
          memory := st.memory ++
            [Message.user s, Message.model (some ("GENERATED - " ++ s)) none],
          trace := st.trace ++ [.genText (Message.user s) none] } := by
  have h := send_marker_sb [] {} rfl false s st
  simpa [echoBackend, wrapAll] using h

lemma sendSeq_echo (inputs : List String) (st : St) :
    sendSeq ⟨[], []⟩ echoBackend inputs st =
      .ok ()
        { st with
          memory := st.memory ++ convPairs inputs,
          trace := st.trace ++ inputs.map (fun s => .genText (.user s) none) } := by
  induction inputs generalizing st with
  | nil => simp [sendSeq, convPairs]
  | cons s rest ih =>
    simp only [sendSeq]
    rw [send_echo]
    simp only [ih]
    simp [convPairs, List.append_assoc]

lemma convPairs_length (inputs : List String) :
    (convPairs inputs).length = 2 * inputs.length := by
  induction inputs with
  | nil => simp [convPairs]
  | cons s rest ih =>
    simp only [convPairs, List.flatMap_cons] at ih ⊢
    simp [ih]
    omega

lemma isGen_beforeFn (p fn : String) (a : Option Params) :
    isGen (.beforeFn p fn a) = false := rfl

lemma isGen_afterFn (p fn : String) (a : Option Params) (r : String) :
    isGen (.afterFn p fn a r) = false := rfl

lemma isGen_handlerRun (fn : String) : isGen (.handlerRun fn) = false := rfl

lemma runBeforeFnChain_gen (ps : List Plugin) (fn : String) (a : Option Params) (st : St) :
    genCount (stOf (runBeforeFnChain ps fn a st)).trace = genCount st.trace := by
  induction ps generalizing st with
  | nil => simp [runBeforeFnChain, stOf]
  | cons p rest ih =>
    simp only [runBeforeFnChain]
    cases hp : p.on_before_function_call fn a with
    | error e =>
      simp [stOf, pushEv, genCount_append, genCount, isGen]
    | ok u =>
      rw [ih]
      simp [pushEv, genCount_append, genCount, isGen]

lemma runAfterFnChain_gen (ps : List Plugin) (fn : String) (a : Option Params)
    (r : String) (st : St) :
    genCount (stOf (runAfterFnChain ps fn a r st)).trace = genCount st.trace := by
  induction ps generalizing r st with
  | nil => simp [runAfterFnChain, stOf]
  | cons p rest ih =>
    simp only [runAfterFnChain]
    cases hp : p.on_after_function_call fn r a with
    | error e =>
      simp [stOf, pushEv, genCount_append, genCount, isGen]
    | ok o =>
      cases o with
      | none =>
        rw [ih]
        simp [pushEv, genCount_append, genCount, isGen]
      | some r2 =>
        rw [ih]
        simp [pushEv, genCount_append, genCount, isGen]

lemma wrapHandler_gen (ps : List Plugin) (f : Func) (raw : RawArgs) (st : St) :
    genCount (stOf (wrapHandler ps f raw st)).trace = genCount st.trace := by
  simp only [wrapHandler]
  split
  case h_1 e heq => simp [stOf]
  case h_2 a heq =>
    have hb := runBeforeFnChain_gen ps f.name a st
    split
    case h_1 e st1 hr =>
      rw [hr] at hb
      simpa [stOf] using hb
    case h_2 u st1 hr =>
      rw [hr] at hb
      simp only [stOf] at hb
      rw [runAfterFnChain_gen]
      simpa [pushEv, genCount_append, genCount, isGen] using hb

lemma runSimpleBackend_gen (sb : SimpleBackend) (i : Message) (sys : Option Message)
    (fns : List (String × WFunc)) (oc : Bool) (st : St)
    (hf : ∀ nm w, assocLookup nm fns = some w →
      ∀ raw st2, genCount (stOf (w.handler raw st2)).trace = genCount st2.trace) :
    genCount (stOf (runSimpleBackend sb i sys fns oc st)).trace = genCount st.trace := by
  cases oc with
  | false =>
    simp only [runSimpleBackend, Bool.cond_false]
    split
    case h_1 hcf => simp [stOf]
    case h_2 pr hcf =>
      simp only [backendRespond]
      split
      case h_1 hlk => simp [stOf]
      case h_2 w hlk =>
        simp only [foldFnResult]
        split
        case h_1 e st3 hr =>
          have h2 := hf pr.1 w hlk pr.2 { st with memory := st.memory ++ [i] }
          rw [hr] at h2
          simpa [stOf] using h2
        case h_2 r st3 hr =>
          have h2 := hf pr.1 w hlk pr.2 { st with memory := st.memory ++ [i] }
          rw [hr] at h2
          simpa [stOf] using h2
  | true =>
    simp only [runSimpleBackend, Bool.cond_true]
    split
    case h_1 hcf => simp [stOf]
    case h_2 pr hcf =>
      simp only [backendRespond]
      split
      case h_1 hlk => simp [stOf]
      case h_2 w hlk =>
        simp only [foldFnResult]
        split
        case h_1 e st3 hr =>
          have h2 := hf pr.1 w hlk pr.2
            { st with memory := st.memory ++ [i], chunks := st.chunks ++ sb.chunks }
          rw [hr] at h2
          simpa [stOf] using h2
        case h_2 r st3 hr =>
          have h2 := hf pr.1 w hlk pr.2
            { st with memory := st.memory ++ [i], chunks := st.chunks ++ sb.chunks }
          rw [hr] at h2
          simpa [stOf] using h2

lemma buildWrappedFunctions_nochange (cp : ChatPrompt)
    (h : ∀ p ∈ cp.plugins, ∀ x, p.on_build_functions x = .ok none) :
    buildWrappedFunctions cp =
      .ok (fnsDict (cp.functions.map (fun nf => wrapFunc cp.plugins nf.2))) := by
  simp only [buildWrappedFunctions]
  rw [chainBuildFunctions_nochange _ _ h]

lemma lookup_fnsDict_wrapped (ps : List Plugin) (fs : List (String × Func)) (nm : String)
    (w : WFunc)
    (h : assocLookup nm (fnsDict (fs.map (fun nf => wrapFunc ps nf.2))) = some w) :
    ∃ f : Func, w = wrapFunc ps f := by
  induction fs with
  | nil => simp [fnsDict, assocLookup] at h
  | cons nf rest ih =>
    simp only [List.map_cons, fnsDict, assocLookup] at h ih
    cases hk : ((wrapFunc ps nf.2).name == nm) with
    | true =>
      rw [hk] at h
      simp at h
      exact ⟨nf.2, h.symm⟩
    | false =>
      rw [hk] at h
      simp at h
      refine ih ?_
      rw [List.map_map]
      exact h

lemma finalizeSend_gen (ps : List Plugin) (r : EResult Message) :
    genCount (stOf (finalizeSend ps r)).trace = genCount (stOf r).trace := by
  cases r with
  | error e s => rfl
  | ok resp s =>
    simp only [finalizeSend]
    cases h : chainAfterSend ps resp <;> simp [stOf]

lemma send_genCount (cp : ChatPrompt) (sb : SimpleBackend) (input : SendInput)
    (instr : Option Message) (oc : Bool) (st : St)
    (hps : ∀ p ∈ cp.plugins, ∀ x, p.on_build_functions x = .ok none) :
    genCount (stOf (send cp (runSimpleBackend sb) input instr oc st)).trace ≤
      genCount st.trace + 1 := by
  have hf : ∀ nm w,
      assocLookup nm (fnsDict (cp.functions.map (fun nf => wrapFunc cp.plugins nf.2))) = some w →
      ∀ raw st2, genCount (stOf (w.handler raw st2)).trace = genCount st2.trace := by
    intro nm w hlw raw st2
    obtain ⟨f, rfl⟩ := lookup_fnsDict_wrapped cp.plugins cp.functions nm w hlw
    exact wrapHandler_gen cp.plugins f raw st2
  simp only [send]
  split
  case h_1 e heq => simp [stOf]
  case h_2 m1 heq =>
    split
    case h_1 e heq2 => simp [stOf]
    case h_2 sys heq2 =>
      split
      case h_1 e heq3 => simp [stOf]
      case h_2 fns heq3 =>
        rw [buildWrappedFunctions_nochange cp hps] at heq3
        injection heq3 with hfns
        subst hfns
        rw [finalizeSend_gen]
        rw [runSimpleBackend_gen sb m1 sys
          (fnsDict (cp.functions.map (fun nf => wrapFunc cp.plugins nf.2))) oc
          (pushEv st (.genText m1 sys)) hf]
        simp [pushEv, genCount_append, genCount, isGen]

lemma dictSet_dictSet (k : String) (v1 v2 : Func) (l : List (String × Func)) :
    dictSet k v2 (dictSet k v1 l) = dictSet k v2 l := by
  induction l with
  | nil => simp [dictSet]
  | cons kv rest ih =>
    obtain ⟨k1, u⟩ := kv
    cases hk : (k1 == k) with
    | true => simp [dictSet, hk]
    | false => simp [dictSet, hk, ih]

lemma assocLookup_dictSet_self (k : String) (v : Func) (l : List (String × Func)) :
    assocLookup k (dictSet k v l) = some v := by
  induction l with
  | nil => simp [dictSet, assocLookup]
  | cons kv rest ih =>
    obtain ⟨k1, u⟩ := kv
    cases hk : (k1 == k) with
    | true => simp [dictSet, hk, assocLookup]
    | false => simp [dictSet, hk, assocLookup, ih]

lemma dictSet_filter_ne (k : String) (v : Func) (l : List (String × Func)) :
    (dictSet k v l).filter (fun kv => kv.1 != k) = l.filter (fun kv => kv.1 != k) := by
  induction l with
  | nil => simp [dictSet]
  | cons kv rest ih =>
    obtain ⟨k1, u⟩ := kv
    cases hk : (k1 == k) with
    | true =>
      have hk1 : k1 = k := by simpa using hk
      subst hk1
      simp [dictSet, List.filter]
    | false =>
      simp only [bne] at ih
      simp [dictSet, List.filter_cons, bne, hk, ih]

lemma filter_key_eq_nil (k : String) (l : List (String × Func))
    (h : k ∉ l.map Prod.fst) :
    l.filter (fun kv => kv.1 == k) = [] := by
  induction l with
  | nil => rfl
  | cons kv rest ih =>
    obtain ⟨k1, u⟩ := kv
    simp only [List.map_cons, List.mem_cons, not_or] at h
    have hk : (k1 == k) = false := by
      simp only [beq_eq_false_iff_ne, ne_eq]
      exact fun hkk => h.1 (hkk ▸ rfl)
    simp [List.filter, hk, ih h.2]

lemma dictSet_filter_key (k : String) (v : Func) (l : List (String × Func))
    (h : (l.map Prod.fst).Nodup) :
    (dictSet k v l).filter (fun kv => kv.1 == k) = [(k, v)] := by
  induction l with
  | nil => simp [dictSet]
  | cons kv rest ih =>
    obtain ⟨k1, u⟩ := kv
    simp only [List.map_cons, List.nodup_cons] at h
    cases hk : (k1 == k) with
    | true =>
      have hk1 : k1 = k := by simpa using hk
      subst hk1
      simp only [dictSet, beq_self_eq_true, if_true]
      simp [List.filter, filter_key_eq_nil k1 rest h.1]
    | false =>
      simp [dictSet, hk, List.filter, ih h.2]

lemma filter_isGen_map_beforeFn (ps : List Plugin) (fn : String) (a : Option Params) :
    (ps.map (fun p => Event.beforeFn p.name fn a)).filter isGen = [] := by
  induction ps with
  | nil => rfl
  | cons p rest ih => simp [List.filter_cons, isGen, ih]

lemma filter_isGen_map_afterFn (ps : List Plugin) (fn : String) (a : Option Params)
    (r : String) :
    (ps.map (fun p => Event.afterFn p.name fn a r)).filter isGen = [] := by
  induction ps with
  | nil => rfl
  | cons p rest ih => simp [List.filter_cons, isGen, ih]

lemma wrapHandler_noop_obs (n : Nat) (nm : String) (f : Func) (raw : RawArgs) (st : St) :
    obsOut (wrapHandler (List.replicate n (BaseAIPlugin nm)) f raw st) =
      obsOut (wrapHandler [] f raw st) := by
  cases hv : validateArgs f.parameter_schema raw with
  | error e =>
    rw [wrapHandler_invalid _ f raw e st hv, wrapHandler_invalid [] f raw e st hv]
  | ok a =>
    have hb : ∀ p ∈ List.replicate n (BaseAIPlugin nm),
        p.on_before_function_call f.name a = .ok () := by
      intro p hp
      rw [noop_mem_replicate n nm p hp]
      rfl
    have ha : ∀ p ∈ List.replicate n (BaseAIPlugin nm),
        ∀ x, p.on_after_function_call f.name x a = .ok none := by
      intro p hp x
      rw [noop_mem_replicate n nm p hp]
      rfl
    rw [wrapHandler_ok _ f raw a st hv hb ha,
      wrapHandler_ok [] f raw a st hv (by simp) (by simp)]
    simp [obsOut, toExcept, stOf, List.filter_append, filter_isGen_map_beforeFn,
      filter_isGen_map_afterFn, isGen]

lemma handlersObsEq_wrapped (n : Nat) (nm : String) (fs : List (String × Func)) :
    HandlersObsEq
      (fnsDict (fs.map (fun nf => wrapFunc (List.replicate n (BaseAIPlugin nm)) nf.2)))
      (fnsDict (fs.map (fun nf => wrapFunc [] nf.2))) := by
  intro k
  induction fs with
  | nil => exact Or.inl ⟨rfl, rfl⟩
  | cons nf rest ih =>
    simp only [List.map_cons, fnsDict, assocLookup, wrapFunc]
    cases hk : (nf.2.name == k) with
    | true =>
      right
      refine ⟨wrapFunc (List.replicate n (BaseAIPlugin nm)) nf.2, wrapFunc [] nf.2,
        ?_, ?_, ?_⟩
      · simp [wrapFunc, hk]
      · simp [wrapFunc, hk]
      · intro raw st
        exact wrapHandler_noop_obs n nm nf.2 raw st
    | false =>
      simp only [hk, if_false, Bool.false_eq_true]
      simpa [fnsDict] using ih

lemma obs_foldFnResult (g : String → Message) (r1 r2 : EResult String)
    (h : obsOut r1 = obsOut r2) :
    obsOut (foldFnResult g r1) = obsOut (foldFnResult g r2) := by
  cases r1 with
  | ok a1 s1 =>
    cases r2 with
    | ok a2 s2 =>
      simp only [obsOut, toExcept, stOf, Prod.mk.injEq, Except.ok.injEq] at h
      obtain ⟨ha, hm, hc, hg⟩ := h
      subst ha
      simp [foldFnResult, obsOut, toExcept, stOf, hm, hc, hg]
    | error e2 s2 =>
      simp [obsOut, toExcept, stOf] at h
  | error e1 s1 =>
    cases r2 with
    | ok a2 s2 =>
      simp [obsOut, toExcept, stOf] at h
    | error e2 s2 =>
      simp only [obsOut, toExcept, stOf, Prod.mk.injEq, Except.error.injEq] at h
      obtain ⟨he, hm, hc, hg⟩ := h
      subst he
      simp [foldFnResult, obsOut, toExcept, stOf, hm, hc, hg]

lemma backendRespond_obs (base : String) (pr : String × RawArgs)
    (fns1 fns2 : List (String × WFunc)) (st2 : St) (h : HandlersObsEq fns1 fns2) :
    obsOut (backendRespond base pr fns1 st2) = obsOut (backendRespond base pr fns2 st2) := by
  simp only [backendRespond]
  rcases h pr.1 with ⟨h1, h2⟩ | ⟨w1, w2, h1, h2, hw⟩
  · rw [h1, h2]
  · rw [h1, h2]
    exact obs_foldFnResult _ _ _ (hw pr.2 _)

lemma runSimpleBackend_obs (sb : SimpleBackend) (i : Message) (sys : Option Message)
    (oc : Bool) (st : St) (fns1 fns2 : List (String × WFunc))
    (h : HandlersObsEq fns1 fns2) :
    obsOut (runSimpleBackend sb i sys fns1 oc st) =
      obsOut (runSimpleBackend sb i sys fns2 oc st) := by
  simp only [runSimpleBackend]
  cases hcf : sb.callFn with
  | none => rfl
  | some pr => exact backendRespond_obs _ pr fns1 fns2 _ h

lemma noop_replicate_before_send (n : Nat) (nm : String) :
    ∀ p ∈ List.replicate n (BaseAIPlugin nm), ∀ x, p.on_before_send x = .ok none := by
  intro p hp x
  rw [noop_mem_replicate n nm p hp]
  rfl

lemma noop_replicate_build_instructions (n : Nat) (nm : String) :
    ∀ p ∈ List.replicate n (BaseAIPlugin nm), ∀ x, p.on_build_instructions x = .ok none := by
  intro p hp x
  rw [noop_mem_replicate n nm p hp]
  rfl

lemma noop_replicate_build_functions (n : Nat) (nm : String) :
    ∀ p ∈ List.replicate n (BaseAIPlugin nm), ∀ x, p.on_build_functions x = .ok none := by
  intro p hp x
  rw [noop_mem_replicate n nm p hp]
  rfl

lemma noop_replicate_after_send (n : Nat) (nm : String) :
    ∀ p ∈ List.replicate n (BaseAIPlugin nm), ∀ x, p.on_after_send x = .ok none := by
  intro p hp x
  rw [noop_mem_replicate n nm p hp]
  rfl

lemma finalizeSend_obs (ps : List Plugin)
    (hps : ∀ p ∈ ps, ∀ x, p.on_after_send x = .ok none)
    (r1 r2 : EResult Message) (h : obsOut r1 = obsOut r2) :
    obsOut (finalizeSend ps r1) = obsOut (finalizeSend [] r2) := by
  cases r1 with
  | ok a1 s1 =>
    cases r2 with
    | ok a2 s2 =>
      simp only [obsOut, toExcept, stOf, Prod.mk.injEq, Except.ok.injEq] at h
      obtain ⟨ha, hm, hc, hg⟩ := h
      subst ha
      simp only [finalizeSend, chainAfterSend_nochange ps a1 hps]
      simp [chainAfterSend, obsOut, toExcept, stOf, hm, hc, hg]
    | error e2 s2 => simp [obsOut, toExcept, stOf] at h
  | error e1 s1 =>
    cases r2 with
    | ok a2 s2 => simp [obsOut, toExcept, stOf] at h
    | error e2 s2 =>
      simp only [obsOut, toExcept, stOf, Prod.mk.injEq, Except.error.injEq] at h
      obtain ⟨he, hm, hc, hg⟩ := h
      subst he
      simp [finalizeSend, obsOut, toExcept, stOf, hm, hc, hg]

/-! Claim theorems. -/

/-- C1: for every ChatPrompt with plugin list `p1..pN` and every send call,
the `on_before_send` hooks run strictly in registration order producing the
input the backend receives (recorded in the `genText` event), and the
`on_after_send` hooks run in the same registration order over the backend's
final model message — no reversal.  For N marker plugins the backend input
carries all N before-markers applied in registration order
(`wrapAll (marks.map Prod.fst)`), and the result carries all N
after-markers applied in registration order (`wrapAll (marks.map
Prod.snd)`), matching `test_multiple_plugins_execution_order`. -/
theorem send_plugin_chains_in_registration_order
    (marks : List (String × String)) (s : String) (st : St) :
    send ⟨[], marks.map (fun bm => markerPlugin bm.1 bm.2)⟩ echoBackend (.str s) none false st =
      .ok ⟨Message.model (some (wrapAll (marks.map Prod.snd)
            ("GENERATED - " ++ wrapAll (marks.map Prod.fst) s))) none⟩
        { st with
          memory := st.memory ++ [Message.user (wrapAll (marks.map Prod.fst) s),
            Message.model (some ("GENERATED - " ++ wrapAll (marks.map Prod.fst) s)) none],
          trace := st.trace ++
            [.genText (Message.user (wrapAll (marks.map Prod.fst) s)) none] } := by
  have h := send_marker_sb marks {} rfl false s st
  simpa [echoBackend] using h

/-- C2: every invocation of a wrapped handler with arguments that validate
first fires `on_before_function_call` for every plugin in registration
order (passing the function name and the validated arguments), then runs
the real handler exactly once, then fires `on_after_function_call` for
every plugin in registration order threading the evolving result string;
the string produced by the last plugin is the function's result
(`wrapAll ms (f.handler a)`). -/
theorem wrapped_handler_fires_hooks_in_order (ms : List String) (f : Func)
    (raw : RawArgs) (a : Option Params) (st : St)
    (hv : validateArgs f.parameter_schema raw = .ok a) :
    wrapHandler (ms.map fnMarkerPlugin) f raw st =
      .ok (wrapAll ms (f.handler a))
        { st with trace := st.trace ++ ms.map (fun m => .beforeFn m f.name a)
            ++ [.handlerRun f.name] ++ afterEvs f.name a ms (f.handler a) } := by
  simp only [wrapHandler, hv]
  have hb : ∀ p ∈ ms.map fnMarkerPlugin, p.on_before_function_call f.name a = .ok () := by
    intro p hp
    obtain ⟨m, _, rfl⟩ := List.mem_map.mp hp
    rfl
  rw [runBeforeFnChain_closed _ f.name a st hb]
  simp only [pushEv]
  rw [runAfterFnChain_fnMarker]
  simp [List.map_map, Function.comp, fnMarkerPlugin]

/-- Witness for C2 at two marker plugins and a concrete function. -/
theorem wrapped_handler_fires_hooks_in_order_witness :
    validateArgs sampleFunc.parameter_schema [("value", "x")] = .ok (some [("value", "x")]) ∧
    wrapHandler (["A", "B"].map fnMarkerPlugin) sampleFunc [("value", "x")] emptySt =
      .ok (wrapAll ["A", "B"] (sampleFunc.handler (some [("value", "x")])))
        { emptySt with trace := emptySt.trace ++
            ["A", "B"].map (fun m => .beforeFn m sampleFunc.name (some [("value", "x")]))
            ++ [.handlerRun sampleFunc.name]
            ++ afterEvs sampleFunc.name (some [("value", "x")]) ["A", "B"] "Function executed successfully" } :=
  ⟨rfl, wrapped_handler_fires_hooks_in_order ["A", "B"] sampleFunc [("value", "x")]
    (some [("value", "x")]) emptySt rfl⟩

/-- C3: K sequential send calls on an initially empty memory with the echo
backend (no function calls) leave exactly 2K messages, alternating
input/response pairs in call order; the backend writes both messages of
each turn and the engine appends nothing itself. -/
theorem memory_alternating_pairs_after_sends (inputs : List String) (st : St)
    (h : st.memory = []) :
    sendSeq ⟨[], []⟩ echoBackend inputs st =
      .ok ()
        { st with
          memory := convPairs inputs,
          trace := st.trace ++ inputs.map (fun s => .genText (.user s) none) } ∧
    (convPairs inputs).length = 2 * inputs.length := by
  constructor
  · have hs := sendSeq_echo inputs st
    rw [h] at hs
    simpa using hs
  · exact convPairs_length inputs

/-- Witness for C3: the two-send scenario of `test_memory_updates` —
memory ends as [User "Hello", Model "GENERATED - Hello",
User "How are you?", Model "GENERATED - How are you?"]. -/
theorem memory_alternating_pairs_after_sends_witness :
    emptySt.memory = [] ∧
    (sendSeq ⟨[], []⟩ echoBackend ["Hello", "How are you?"] emptySt =
      .ok ()
        { emptySt with
          memory := convPairs ["Hello", "How are you?"],
          trace := emptySt.trace ++
            ["Hello", "How are you?"].map (fun s => .genText (.user s) none) } ∧
    (convPairs ["Hello", "How are you?"]).length = 2 * (["Hello", "How are you?"] : List String).length) ∧
    convPairs ["Hello", "How are you?"] =
      [Message.user "Hello", Message.model (some "GENERATED - Hello") none,
       Message.user "How are you?", Message.model (some "GENERATED - How are you?") none] :=
  ⟨rfl, memory_alternating_pairs_after_sends ["Hello", "How are you?"] emptySt rfl, rfl⟩

/-- C4: arguments failing schema validation are caught at the tool-wrapper
boundary and folded into the function's result string — the wrapped handler
returns normally with the error text and touches no state — and a full send
call in which the backend invokes such a function succeeds, the error text
appearing in the model-visible response content; nothing is raised to the
caller of send. -/
theorem validation_error_folded_not_raised (ps : List Plugin) (f : Func) (sch : Schema)
    (raw : RawArgs) (e : String) (s : String) (st : St)
    (hsch : f.parameter_schema = some sch) (hv : sch.validate raw = .error e) :
    wrapHandler ps f raw st = .ok (validationErrorMessage f.name e) st ∧
    send ⟨[(f.name, f)], []⟩ (runSimpleBackend { callFn := some (f.name, raw) })
        (.str s) none false st =
      .ok ⟨Message.model
          (some ("GENERATED - " ++ s ++ " | Function result: " ++ validationErrorMessage f.name e))
          (some [⟨"call_1", f.name, raw⟩])⟩
        { st with
          memory := st.memory ++ [Message.user s,
            Message.model
              (some ("GENERATED - " ++ s ++ " | Function result: " ++ validationErrorMessage f.name e))
              (some [⟨"call_1", f.name, raw⟩])],
          trace := st.trace ++ [.genText (Message.user s) none] } := by
  have hiv : validateArgs f.parameter_schema raw = .error e := by
    rw [hsch]
    simp [validateArgs, hv]
  constructor
  · exact wrapHandler_invalid ps f raw e st hiv
  · simp only [send, normalizeInput, chainBeforeSend, chainBuildInstructions,
      buildWrappedFunctions, chainBuildFunctions, List.map_cons, List.map_nil, fnsDict,
      runSimpleBackend, msgText, Bool.cond_false, backendRespond, assocLookup, wrapFunc,
      beq_self_eq_true, if_true]
    rw [wrapHandler_invalid [] f raw e _ hiv]
    simp [foldFnResult, finalizeSend, chainAfterSend, pushEv, List.append_assoc]

/-- Witness for C4 at a concrete rejecting schema. -/
theorem validation_error_folded_not_raised_witness :
    rejectingFunc.parameter_schema = some rejectSchema ∧
    rejectSchema.validate [] = .error "bad arguments" ∧
    wrapHandler [] rejectingFunc [] emptySt =
      .ok (validationErrorMessage rejectingFunc.name "bad arguments") emptySt :=
  ⟨rfl, rfl,
    (validation_error_folded_not_raised [] rejectingFunc rejectSchema [] "bad arguments"
      "hi" emptySt rfl rfl).1⟩

/-- C5: an exception from the backend's generate_text propagates to the
caller unmodified (same value, nothing caught); an exception from a plugin
hook (here `on_after_send`) propagates the same way; and the engine
performs no retries — one send call records at most one backend invocation
in its trace, for any prompt whose plugins leave the function list
unchanged. -/
theorem errors_propagate_unmodified_no_retries (e : Err) (fs : List (String × Func))
    (input : SendInput) (instr : Option Message) (oc : Bool) (st : St)
    (cp : ChatPrompt) (sb : SimpleBackend)
    (hps : ∀ p ∈ cp.plugins, ∀ x, p.on_build_functions x = .ok none) :
    send ⟨fs, []⟩ (throwingBackend e) input instr oc st =
      .error e { st with trace := st.trace ++ [.genText (normalizeInput input) instr] } ∧
    send ⟨fs, [raisingAfterSendPlugin e]⟩ (runSimpleBackend {}) input instr oc st =
      .error e
        { st with
          memory := st.memory ++ [normalizeInput input,
            Message.model (some ("GENERATED - " ++ msgText (normalizeInput input))) none],
          trace := st.trace ++ [.genText (normalizeInput input) instr] } ∧
    genCount (stOf (send cp (runSimpleBackend sb) input instr oc st)).trace ≤
      genCount st.trace + 1 := by
  refine ⟨?_, ?_, send_genCount cp sb input instr oc st hps⟩
  · simp [send, throwingBackend, finalizeSend, chainBeforeSend, chainBuildInstructions,
      buildWrappedFunctions, chainBuildFunctions, pushEv]
  · simp only [send, chainBeforeSend, chainBuildInstructions, buildWrappedFunctions,
      chainBuildFunctions, raisingAfterSendPlugin, runSimpleBackend, finalizeSend,
      chainAfterSend, pushEv]
    cases oc <;>
      simp [raisingAfterSendPlugin, finalizeSend, chainAfterSend, List.append_assoc]

/-- Witness for C5 at a concrete prompt, backend and state. -/
theorem errors_propagate_unmodified_no_retries_witness :
    (∀ p ∈ (⟨[], []⟩ : ChatPrompt).plugins, ∀ x, p.on_build_functions x = .ok none) ∧
    send ⟨[], []⟩ (throwingBackend "Model failed") (.str "Test") none false emptySt =
      .error "Model failed"
        { emptySt with trace := emptySt.trace ++ [.genText (normalizeInput (.str "Test")) none] } ∧
    genCount (stOf (send ⟨[], []⟩ (runSimpleBackend {}) (.str "Test") none false emptySt)).trace ≤
      genCount emptySt.trace + 1 := by
  have h := errors_propagate_unmodified_no_retries "Model failed" [] (.str "Test") none false
    emptySt (⟨[], []⟩ : ChatPrompt) ({} : SimpleBackend) (by intro p hp x; cases hp)
  exact ⟨(by intro p hp x; cases hp), h.1, h.2.2⟩

/-- C6: if an `on_before_send` hook raises (after any prefix of plugins
whose hooks succeed), send raises the same error, the rest of the call is
aborted, and the state is completely untouched: the backend records zero
invocations (no `genText` event) and memory is not written.  This holds
for every backend. -/
theorem before_send_raise_aborts_send (e : Err) (fs : List (String × Func))
    (ps ps2 : List Plugin) (B : Backend) (input : SendInput) (instr : Option Message)
    (oc : Bool) (st : St) (m1 : Message)
    (h : chainBeforeSend ps (normalizeInput input) = .ok m1) :
    send ⟨fs, ps ++ raisingBeforeSendPlugin e :: ps2⟩ B input instr oc st = .error e st := by
  have hc : chainBeforeSend (ps ++ raisingBeforeSendPlugin e :: ps2) (normalizeInput input) =
      .error e := by
    rw [chainBeforeSend_append ps _ _ _ h]
    simp [chainBeforeSend, raisingBeforeSendPlugin]
  simp [send, hc]

/-- Witness for C6: a raising plugin as the only plugin. -/
theorem before_send_raise_aborts_send_witness :
    chainBeforeSend [] (normalizeInput (.str "Test message")) = .ok (.user "Test message") ∧
    send ⟨[], [] ++ raisingBeforeSendPlugin "Plugin error" :: []⟩ echoBackend
        (.str "Test message") none false emptySt =
      .error "Plugin error" emptySt :=
  ⟨rfl, before_send_raise_aborts_send "Plugin error" [] [] [] echoBackend
    (.str "Test message") none false emptySt (.user "Test message") rfl⟩

/-- C7: with an `on_chunk` callback supplied, the callback receives exactly
the backend's emitted chunk sequence, in order, with no gaps or duplicates
(the final chunk log equals the backend's chunk list appended to the prior
log), before the final aggregated response is produced, and independently
of which marker plugins are registered. -/
theorem on_chunk_receives_backend_chunks_in_order (cs : List String)
    (marks : List (String × String)) (s : String) (st : St) :
    send ⟨[], marks.map (fun bm => markerPlugin bm.1 bm.2)⟩
        (runSimpleBackend { chunks := cs }) (.str s) none true st =
      .ok ⟨Message.model (some (wrapAll (marks.map Prod.snd)
            ("GENERATED - " ++ wrapAll (marks.map Prod.fst) s))) none⟩
        { st with
          memory := st.memory ++ [Message.user (wrapAll (marks.map Prod.fst) s),
            Message.model (some ("GENERATED - " ++ wrapAll (marks.map Prod.fst) s)) none],
          chunks := st.chunks ++ cs,
          trace := st.trace ++
            [.genText (Message.user (wrapAll (marks.map Prod.fst) s)) none] } := by
  have h := send_marker_sb marks { chunks := cs } rfl true s st
  simpa using h

/-- C8: registering two functions under the same name leaves exactly one
registry entry under that name — the most recently registered function —
with no rejection, entries under other names unchanged, and the plugin
list untouched; the updated prompt is the value `with_function` hands back
for chaining (Python mutates in place and returns `self`, modelled here as
state passing). -/
theorem with_function_last_write_wins (cp : ChatPrompt) (f g : Func)
    (h1 : (cp.functions.map Prod.fst).Nodup) (h2 : g.name = f.name) :
    assocLookup f.name ((cp.with_function f).with_function g).functions = some g ∧
    ((cp.with_function f).with_function g).functions.filter (fun kv => kv.1 == f.name) =
      [(f.name, g)] ∧
    ((cp.with_function f).with_function g).functions.filter (fun kv => kv.1 != f.name) =
      cp.functions.filter (fun kv => kv.1 != f.name) ∧
    ((cp.with_function f).with_function g).plugins = cp.plugins := by
  simp only [ChatPrompt.with_function, h2]
  rw [dictSet_dictSet]
  exact ⟨assocLookup_dictSet_self f.name g cp.functions,
    dictSet_filter_key f.name g cp.functions h1,
    dictSet_filter_ne f.name g cp.functions, trivial⟩

/-- Witness for C8: overwrite `sampleFunc` with `sampleFunc2` next to an
unrelated registered function. -/
theorem with_function_last_write_wins_witness :
    ((([("picky_function", rejectingFunc)] : List (String × Func)).map Prod.fst).Nodup) ∧
    sampleFunc2.name = sampleFunc.name ∧
    assocLookup sampleFunc.name
      (((⟨[("picky_function", rejectingFunc)], []⟩ : ChatPrompt).with_function
        sampleFunc).with_function sampleFunc2).functions = some sampleFunc2 :=
  ⟨by simp,
    rfl,
    (with_function_last_write_wins ⟨[("picky_function", rejectingFunc)], []⟩ sampleFunc
      sampleFunc2 (by simp) rfl).1⟩

/-- C9: a send call on a prompt whose plugins all leave every hook at the
default no-op (equivalently, return the no-change sentinel) is
observationally identical to a send on an otherwise identical prompt with
zero plugins: the same returned value or exception, the same memory, the
same delivered chunks, and the same backend invocations (so the same
backend-observed input), for every simple backend, input, instructions,
streaming flag and state. -/
theorem noop_plugins_equivalent_to_no_plugins (n : Nat) (nm : String)
    (fs : List (String × Func)) (sb : SimpleBackend) (input : SendInput)
    (instr : Option Message) (oc : Bool) (st : St) :
    obsOut (send ⟨fs, List.replicate n (BaseAIPlugin nm)⟩ (runSimpleBackend sb)
        input instr oc st) =
      obsOut (send ⟨fs, []⟩ (runSimpleBackend sb) input instr oc st) := by
  simp only [send]
  rw [chainBeforeSend_nochange _ _ (noop_replicate_before_send n nm)]
  rw [chainBuildInstructions_nochange _ _ (noop_replicate_build_instructions n nm)]
  rw [buildWrappedFunctions_nochange ⟨fs, List.replicate n (BaseAIPlugin nm)⟩
    (noop_replicate_build_functions n nm)]
  rw [buildWrappedFunctions_nochange ⟨fs, []⟩ (by intro p hp x; cases hp)]
  simp only [chainBeforeSend, chainBuildInstructions]
  exact finalizeSend_obs _ (noop_replicate_after_send n nm) _ _
    (runSimpleBackend_obs sb (normalizeInput input) instr oc
      (pushEv st (.genText (normalizeInput input) instr)) _ _
      (handlersObsEq_wrapped n nm fs))

/-- C10: the functions the engine passes to the backend are the registered
functions with name, description and parameter schema unchanged — only the
handler is replaced by the hook-firing wrapper; with no-change
`on_build_functions` hooks the dict passed to the backend is exactly the
registry mapped through `wrapFunc`, and wrapping preserves all metadata
fields for every plugin list. -/
theorem wrapping_preserves_function_metadata (cp : ChatPrompt)
    (h : ∀ p ∈ cp.plugins, ∀ x, p.on_build_functions x = .ok none) :
    buildWrappedFunctions cp =
      .ok (cp.functions.map (fun nf => (nf.2.name, wrapFunc cp.plugins nf.2))) ∧
    ∀ (ps : List Plugin) (f : Func), (wrapFunc ps f).name = f.name ∧
      (wrapFunc ps f).description = f.description ∧
      (wrapFunc ps f).parameter_schema = f.parameter_schema := by
  constructor
  · rw [buildWrappedFunctions_nochange cp h]
    simp only [fnsDict, List.map_map]
    rfl
  · intro ps f
    exact ⟨rfl, rfl, rfl⟩

/-- Witness for C10 at a concrete registry and a base plugin. -/
theorem wrapping_preserves_function_metadata_witness :
    (∀ p ∈ (⟨[("test_function", sampleFunc)], [BaseAIPlugin "base"]⟩ : ChatPrompt).plugins,
      ∀ x, p.on_build_functions x = .ok none) ∧
    buildWrappedFunctions ⟨[("test_function", sampleFunc)], [BaseAIPlugin "base"]⟩ =
      .ok ([("test_function", sampleFunc)].map
        (fun nf => (nf.2.name, wrapFunc [BaseAIPlugin "base"] nf.2))) := by
  have hp : ∀ p ∈ (⟨[("test_function", sampleFunc)],
      [BaseAIPlugin "base"]⟩ : ChatPrompt).plugins,
      ∀ x, p.on_build_functions x = .ok none := by
    intro p hp x
    simp at hp
    subst hp
    rfl
  exact ⟨hp, (wrapping_preserves_function_metadata _ hp).1⟩

end TeamsAI
